import Mathlib

/-!
Verification of the version / build-number logic of the `uv_easy` package
(src/uv_easy/versioning.py, cli.py, builder.py), via a shallow embedding:
Python strings are `String` (worked on as `List Char`), Python `dict`s loaded
from the TOML manifest are association lists, fallible operations (ones that
reach `sys.exit` on error) return `Option`.
-/

/-- A decimal digit character, ASCII 48..57. -/
def isDigitCh (c : Char) : Bool := 48 ≤ c.toNat && c.toNat ≤ 57

/-- Numeric value of a digit character. -/
def digitVal (c : Char) : Nat := c.toNat - 48

/-- ASCII whitespace recognized by Python `str.strip` / `int()`. -/
def isSpaceCh (c : Char) : Bool :=
  c.toNat == 32 || c.toNat == 9 || c.toNat == 10 || c.toNat == 13 ||
  c.toNat == 11 || c.toNat == 12

/-- The digit character for a value `d < 10`. -/
def digitChar : Nat → Char
  | 0 => '0' | 1 => '1' | 2 => '2' | 3 => '3' | 4 => '4'
  | 5 => '5' | 6 => '6' | 7 => '7' | 8 => '8' | _ => '9'

/-- Fuel-driven core of the decimal renderer (the fuel only bounds the
recursion depth; any fuel above the value works). -/
def natCharsCore : Nat → Nat → List Char
  | 0, _ => []
  | fuel + 1, n =>
    if n < 10 then [digitChar n]
    else natCharsCore fuel (n / 10) ++ [digitChar (n % 10)]

/-- Decimal digit string of a natural number, as Python `str(n)` produces
for a non-negative `int`. -/
def natChars (n : Nat) : List Char := natCharsCore (n + 1) n

/-- Python `str` of an `int` (sign for negatives). -/
def intChars (n : Int) : List Char :=
  if n < 0 then '-' :: natChars n.natAbs else natChars n.toNat

/-- Value of a digit list read left to right, starting from `acc`. -/
def digitsVal (l : List Char) (acc : Nat) : Nat :=
  l.foldl (fun a c => a * 10 + digitVal c) acc

/-- Tail of CPython `int()` digit parsing: digits with single underscores
allowed between digits (`PEP 515`), nothing else. -/
def pyDigitsAux : List Char → Nat → Option Nat
  | [], acc => some acc
  | c :: rest, acc =>
    if c == '_' then
      match rest with
      | [] => none
      | d :: rest' =>
        if isDigitCh d then pyDigitsAux rest' (acc * 10 + digitVal d) else none
    else if isDigitCh c then pyDigitsAux rest (acc * 10 + digitVal c) else none

/-- CPython `int()` digit-part parsing: must start with a digit,
underscores only between digits. -/
def pyDigits : List Char → Option Nat
  | [] => none
  | c :: rest => if isDigitCh c then pyDigitsAux rest (digitVal c) else none

/-- Strip leading and trailing ASCII whitespace (Python `str.strip`). -/
def trimCh (l : List Char) : List Char :=
  ((l.dropWhile isSpaceCh).reverse.dropWhile isSpaceCh).reverse

/-- CPython `int(text)` on ASCII text: optional surrounding whitespace,
optional single sign, then a digit part. `none` models `ValueError`. -/
def pyIntL (l : List Char) : Option Int :=
  match trimCh l with
  | [] => none
  | c :: rest =>
    if c == '+' then (pyDigits rest).map (fun n => (n : Int))
    else if c == '-' then (pyDigits rest).map (fun n => -(n : Int))
    else (pyDigits (c :: rest)).map (fun n => (n : Int))

/-- Python `s.split(sep)` for a one-character separator: always returns at
least one (possibly empty) piece. -/
def splitOnCh (sep : Char) : List Char → List (List Char)
  | [] => [[]]
  | c :: rest =>
    if c == sep then [] :: splitOnCh sep rest
    else
      match splitOnCh sep rest with
      | [] => [[c]]
      | h :: t => (c :: h) :: t

/-- Python `sep.join(pieces)` for a one-character separator. -/
def joinCh (sep : Char) : List (List Char) → List Char
  | [] => []
  | [l] => l
  | l :: l' :: ls => l ++ sep :: joinCh sep (l' :: ls)

/-- The canonical text of a version triple, Python `f"{major}.{minor}.{patch}"`
(versioning.py:128). -/
def renderVersion (a b c : Int) : String :=
  ⟨intChars a ++ '.' :: (intChars b ++ '.' :: intChars c)⟩

/-- Embeds `parse_version` (versioning.py:98-108): split on `'.'`, require
exactly three components, convert each with Python `int()`. `none` models the
caught `ValueError` followed by `sys.exit(1)`. -/
def parse_version (s : String) : Option (Int × Int × Int) :=
  match splitOnCh '.' s.data with
  | [a, b, c] =>
    match pyIntL a, pyIntL b, pyIntL c with
    | some x, some y, some z => some (x, y, z)
    | _, _, _ => none
  | _ => none

/-- The bump step of `increment_version` (versioning.py:115-126), applied to
the parsed triple; `none` models the unknown-kind `sys.exit(1)` branch. -/
def bumpTriple (v : Int × Int × Int) (t : String) : Option (Int × Int × Int) :=
  if t = "major" then some (v.1 + 1, 0, 0)
  else if t = "minor" then some (v.1, v.2.1 + 1, 0)
  else if t = "patch" then some (v.1, v.2.1, v.2.2 + 1)
  else none

/-- Embeds `increment_version` (versioning.py:111-128): parse, bump the
selected component, re-render. -/
def increment_version (version t : String) : Option String :=
  (parse_version version).bind fun v =>
    (bumpTriple v t).map fun w => renderVersion w.1 w.2.1 w.2.2

/-- The build-suffix strip used by `read_version` (versioning.py:71-72) and
`get_version_with_build` (versioning.py:334-336): Python
`version.split('+')[0]` guarded by `'+' in version`. -/
def strip_build_suffix (s : String) : String :=
  if s.data.contains '+' then ⟨s.data.takeWhile (fun c => !(c == '+'))⟩ else s

/-- The composition step of `get_version_with_build` (versioning.py:328-340)
after the two manifest reads: strip any existing suffix, then append
`+{build_number}` when the build number is positive. -/
def qualify (version : String) (build_number : Int) : String :=
  let base := strip_build_suffix version
  if build_number > 0 then ⟨base.data ++ '+' :: intChars build_number⟩ else base

/-- Python `list.startswith` on character lists. -/
def isPrefixOfCh : List Char → List Char → Bool
  | [], _ => true
  | _ :: _, [] => false
  | a :: as, b :: bs => a == b && isPrefixOfCh as bs

/-- Python substring containment (`pat in s`) on character lists. -/
def containsSub (pat : List Char) : List Char → Bool
  | [] => pat.isEmpty
  | c :: rest => isPrefixOfCh pat (c :: rest) || containsSub pat rest

/-- Python `str.lower` on ASCII text. -/
def lowerList (l : List Char) : List Char := l.map Char.toLower

/-- The breaking-change test of `analyze_git_commits` (versioning.py:251):
`'breaking change' in commit_msg or '!' in commit_msg` on the lowercased
line. -/
def lineBreaking (s : String) : Bool :=
  containsSub ("breaking change").data (lowerList s.data) ||
  containsSub ("!").data (lowerList s.data)

/-- The feat test of `analyze_git_commits` (versioning.py:253):
`commit_msg.startswith('feat')` on the lowercased line. -/
def lineFeat (s : String) : Bool := isPrefixOfCh ("feat").data (lowerList s.data)

/-- The fix test of `analyze_git_commits` (versioning.py:255):
`commit_msg.startswith('fix')` on the lowercased line. -/
def lineFix (s : String) : Bool := isPrefixOfCh ("fix").data (lowerList s.data)

/-- One iteration of the flag loop of `analyze_git_commits`
(versioning.py:249-256), with the `elif` masking of the source. -/
def classifyStep (fl : Bool × Bool × Bool) (commit : String) : Bool × Bool × Bool :=
  if lineBreaking commit then (true, fl.2.1, fl.2.2)
  else if lineFeat commit then (fl.1, true, fl.2.2)
  else if lineFix commit then (fl.1, fl.2.1, true)
  else fl

/-- The classification part of `analyze_git_commits` (versioning.py:244-266):
accumulate the three flags over the commit lines, then resolve them with
major over feat over fix, defaulting to patch. -/
def classify_commits (commits : List String) : String :=
  let flags := commits.foldl classifyStep (false, false, false)
  if flags.1 then "major"
  else if flags.2.1 then "minor"
  else if flags.2.2 then "patch"
  else "patch"

/-- Embeds `analyze_git_commits` (versioning.py:223-270) over the captured
output of `git log --oneline -10`: `none` models a nonzero exit status or a
raised exception (both return "patch"); otherwise the output is stripped,
split into lines, and classified. -/
def analyze_git_commits (gitlog : Option String) : String :=
  match gitlog with
  | none => "patch"
  | some out =>
    classify_commits ((splitOnCh '\n' (trimCh out.data)).map (fun l => ⟨l⟩))

/-- A value of the loaded TOML manifest: what the `toml` library yields for
`pyproject.toml` — strings, integers, and nested tables (insertion-ordered
dicts, modeled as association lists). -/
inductive Val where
  | str : String → Val
  | int : Int → Val
  | table : List (String × Val) → Val

/-- A loaded manifest document: the top-level TOML table. -/
abbrev Doc := List (String × Val)

/-- Python dict lookup (keys are unique in a loaded dict). -/
def lookupKey : List (String × Val) → String → Option Val
  | [], _ => none
  | (k', v') :: rest, k => if k' = k then some v' else lookupKey rest k

/-- Python dict assignment `d[k] = v`: replaces an existing key in place,
else appends; `toml.dump` writes the dict back in this order. -/
def setKey : List (String × Val) → String → Val → List (String × Val)
  | [], k, v => [(k, v)]
  | (k', v') :: rest, k, v =>
    if k' = k then (k, v) :: rest else (k', v') :: setKey rest k v

/-- Embeds `read_version` (versioning.py:62-76) on a loaded document:
`data['project']['version']` with the `+` build suffix stripped; `none`
models the caught exception (missing key or non-string value) followed by
`sys.exit(1)`. -/
def read_version (doc : Doc) : Option String :=
  match lookupKey doc "project" with
  | some (Val.table proj) =>
    match lookupKey proj "version" with
    | some (Val.str v) => some (strip_build_suffix v)
    | _ => none
  | _ => none

/-- Embeds `write_version` (versioning.py:79-95): load, set
`data['project']['version']`, dump the whole document. `none` models the
caught exception (`project` missing or not a table) and `sys.exit(1)`. -/
def write_version (doc : Doc) (version : String) : Option Doc :=
  match lookupKey doc "project" with
  | some (Val.table proj) =>
    some (setKey doc "project" (Val.table (setKey proj "version" (Val.str version))))
  | _ => none

/-- Embeds `write_build_number` (versioning.py:289-311): create the `tool`
and `tool.uv_easy` tables when absent, then set `build_number` and dump.
`none` models the caught exception when an existing `tool` or
`tool.uv_easy` entry is not a table. -/
def write_build_number (doc : Doc) (build_number : Int) : Option Doc :=
  match lookupKey doc "tool" with
  | none =>
    some (setKey doc "tool"
      (Val.table [("uv_easy", Val.table [("build_number", Val.int build_number)])]))
  | some (Val.table t) =>
    match lookupKey t "uv_easy" with
    | none =>
      some (setKey doc "tool"
        (Val.table (setKey t "uv_easy"
          (Val.table [("build_number", Val.int build_number)]))))
    | some (Val.table u) =>
      some (setKey doc "tool"
        (Val.table (setKey t "uv_easy"
          (Val.table (setKey u "build_number" (Val.int build_number))))))
    | some _ => none
  | some _ => none

/-- The tag name `create_git_tag` builds (versioning.py:207),
`f"v{version}"`. -/
def tag_name (version : String) : String := ⟨'v' :: version.data⟩

/-- The state the `version up` command touches: the loaded manifest plus the
list of git tags created through the VCS collaborator. -/
structure CliState where
  doc : Doc
  tags : List String

/-- Result of the `up` command: `usageError` models the early `return` after
the flag check (cli.py:68-79); `state = none` models `sys.exit(1)` inside
read/parse/write. -/
structure UpResult where
  usageError : Bool
  state : Option CliState

/-- Embeds the `version up` command (cli.py:64-103): validate the flags,
read and strip the stored version, pick the bump kind (commit analysis when
`--auto`), compute the new version, persist it, then create tag
`v{new_version}`. The push-vs-no-push choice does not affect the modeled
state. -/
def up_cmd (major minor patch auto _noPush : Bool) (gitlog : Option String)
    (st : CliState) : UpResult :=
  let manualCount := (if major then 1 else 0) + (if minor then 1 else 0) +
    (if patch then 1 else 0)
  if auto && decide (0 < manualCount) then ⟨true, some st⟩
  else if !auto && decide (manualCount ≠ 1) then ⟨true, some st⟩
  else
    match read_version st.doc with
    | none => ⟨false, none⟩
    | some cur =>
      let ity := if auto then analyze_git_commits gitlog
        else if major then "major" else if minor then "minor" else "patch"
      match increment_version cur ity with
      | none => ⟨false, none⟩
      | some nv =>
        match write_version st.doc nv with
        | none => ⟨false, none⟩
        | some doc' => ⟨false, some ⟨doc', st.tags ++ [tag_name nv]⟩⟩

/-- The `data['project']['version']` access of `get_version`
(versioning.py:47-54): `none` covers every path into the `except` clause —
manifest missing or unparseable, `project` missing or not a table, or
`version` missing. -/
def manifestVersion : Option Doc → Option Val
  | none => none
  | some doc =>
    match lookupKey doc "project" with
    | some (Val.table proj) => lookupKey proj "version"
    | _ => none

/-- Embeds `get_version` (versioning.py:33-59), the two-source resolver
behind `--version`: the installed-package registry first (`none` models
`PackageNotFoundError`), then the manifest's `project.version`, else the
literal default "0.0.0". -/
def get_version (installed : Option String) (manifest : Option Doc) : Val :=
  match installed with
  | some v => Val.str v
  | none =>
    match manifestVersion manifest with
    | some v => v
    | none => Val.str ("0.0.0")

/-- Parameter list of `build_package` as defined (builder.py:40): the
function takes no parameters. -/
def build_package_params : List String := []

/-- Keyword arguments the `build` command passes to `build_package`
(cli.py:180): `build_package(increment_build=not no_build_number,
version_file=version_file)`. -/
def build_cli_call_kwargs : List String := [("increment_build"), ("version_file")]

/-- A Python call binds only if every keyword argument names a declared
parameter; otherwise it raises `TypeError` before the body runs. -/
def pythonCallBinds (params kwargs : List String) : Bool :=
  kwargs.all (fun k => params.contains k)

/-- A concrete manifest used to evaluate the frame theorem. -/
def docW : Doc :=
  [("project", Val.table [("version", Val.str ("1.0.0")), ("name", Val.str ("pkg"))]),
   ("extra", Val.int 5),
   ("tool", Val.table [("uv_easy", Val.table [("build_number", Val.int 1)])])]

/-- The document `docW` after `write_version docW "9.9.9"`. -/
def docW1 : Doc :=
  [("project", Val.table [("version", Val.str ("9.9.9")), ("name", Val.str ("pkg"))]),
   ("extra", Val.int 5),
   ("tool", Val.table [("uv_easy", Val.table [("build_number", Val.int 1)])])]

/-- The document `docW` after `write_build_number docW 7`. -/
def docW2 : Doc :=
  [("project", Val.table [("version", Val.str ("1.0.0")), ("name", Val.str ("pkg"))]),
   ("extra", Val.int 5),
   ("tool", Val.table [("uv_easy", Val.table [("build_number", Val.int 7)])])]

/-- The replacement test of `write_version_file` (versioning.py:398):
`line.strip().startswith('__version__')`. -/
def versionLinePred (line : List Char) : Bool :=
  isPrefixOfCh ("__version__").data (trimCh line)

/-- The assignment line `write_version_file` writes (versioning.py:399),
`f'__version__ = "{final_version}"'`. -/
def verLineChars (v : String) : List Char :=
  ("__version__ = \"").data ++ v.data ++ ['"']

/-- The first-match replacement loop of `write_version_file`
(versioning.py:393-401): replace the first matching line and stop; `none`
when no line matches. -/
def replaceVersionLine (v : String) : List (List Char) → Option (List (List Char))
  | [] => none
  | l :: rest =>
    if versionLinePred l then some (verLineChars v :: rest)
    else (replaceVersionLine v rest).map (fun ls => l :: ls)

/-- The content transformation of `write_version_file`
(versioning.py:388-412) for an existing file: split on newlines, replace the
first `__version__` line in place and rejoin, else append the assignment
line after normalizing the trailing newline. -/
def write_version_file_content (final_version : String) (content : String) : String :=
  match replaceVersionLine final_version (splitOnCh '\n' content.data) with
  | some newLines => ⟨joinCh '\n' newLines⟩
  | none =>
    ⟨(if !content.data.isEmpty && !(content.data.getLast? == some '\n')
        then content.data ++ ['\n'] else content.data) ++
      verLineChars final_version ++ ['\n']⟩

theorem natCharsCore_congr (n : Nat) : ∀ f1 f2, n < f1 → n < f2 →
    natCharsCore f1 n = natCharsCore f2 n := by
  induction n using Nat.strong_induction_on with
  | _ n ih =>
    intro f1 f2 h1 h2
    match f1, f2 with
    | g1 + 1, g2 + 1 =>
      simp only [natCharsCore]
      by_cases hn : n < 10
      · simp [hn]
      · have hd : n / 10 < n := Nat.div_lt_self (by omega) (by omega)
        simp only [hn, if_false]
        congr 1
        exact ih (n / 10) hd g1 g2 (by omega) (by omega)

/-- The recursive unfolding of `natChars`. -/
theorem natChars_eq (n : Nat) :
    natChars n = if n < 10 then [digitChar n]
      else natChars (n / 10) ++ [digitChar (n % 10)] := by
  unfold natChars
  by_cases hn : n < 10
  · simp [natCharsCore, hn]
  · have hd : n / 10 < n := Nat.div_lt_self (by omega) (by omega)
    simp only [natCharsCore, hn, if_false]
    congr 1
    exact natCharsCore_congr (n / 10) n (n / 10 + 1) (by omega) (by omega)

-- Basic facts about the digit renderer.

theorem natChars_ne_nil (n : Nat) : natChars n ≠ [] := by
  rw [natChars_eq]
  split
  · simp
  · simp

theorem digitChar_digit (d : Nat) : isDigitCh (digitChar d) = true := by
  unfold digitChar
  split <;> decide

theorem digitVal_digitChar (d : Nat) (h : d < 10) : digitVal (digitChar d) = d := by
  interval_cases d <;> decide

theorem natChars_all_digits (n : Nat) : ∀ c ∈ natChars n, isDigitCh c = true := by
  induction n using Nat.strong_induction_on with
  | _ n ih =>
    rw [natChars_eq]
    split
    · intro c hc
      simp at hc
      subst hc
      exact digitChar_digit n
    · intro c hc
      rcases List.mem_append.mp hc with h1 | h1
      · exact ih (n / 10) (Nat.div_lt_self (by omega) (by omega)) c h1
      · simp at h1
        subst h1
        exact digitChar_digit (n % 10)

theorem digitsVal_natChars (n : Nat) : ∀ acc,
    digitsVal (natChars n) acc = acc * 10 ^ (natChars n).length + n := by
  induction n using Nat.strong_induction_on with
  | _ n ih =>
    intro acc
    rw [natChars_eq]
    split
    · rename_i h
      simp [digitsVal, digitVal_digitChar _ h]
    · rename_i h
      have hlt : n / 10 < n := Nat.div_lt_self (by omega) (by omega)
      have := ih (n / 10) hlt
      simp only [digitsVal, List.foldl_append, List.foldl_cons, List.foldl_nil,
        List.length_append, List.length_cons, List.length_nil]
      rw [show List.foldl (fun a c => a * 10 + digitVal c) acc (natChars (n / 10))
            = digitsVal (natChars (n / 10)) acc from rfl, this]
      rw [digitVal_digitChar _ (by omega)]
      rw [pow_succ]
      have := Nat.div_add_mod n 10
      ring_nf
      omega

-- Digit characters are distinguishable from punctuation and whitespace.

theorem digit_beq_false {c x : Char} (hd : isDigitCh c = true)
    (hx : isDigitCh x = false) : (c == x) = false := by
  apply beq_eq_false_iff_ne.mpr
  intro h
  subst h
  rw [hd] at hx
  exact Bool.noConfusion hx

theorem digit_not_space {c : Char} (hd : isDigitCh c = true) : isSpaceCh c = false := by
  unfold isDigitCh at hd
  unfold isSpaceCh
  simp only [Bool.and_eq_true, decide_eq_true_eq] at hd
  simp only [Bool.or_eq_false_iff, beq_eq_false_iff_ne]
  omega

theorem pyDigitsAux_digits (l : List Char) (h : ∀ c ∈ l, isDigitCh c = true) :
    ∀ acc, pyDigitsAux l acc = some (digitsVal l acc) := by
  induction l with
  | nil => intro acc; rfl
  | cons c rest ih =>
    intro acc
    have hc := h c (by simp)
    rw [pyDigitsAux.eq_def]
    simp only [digit_beq_false hc (by decide : isDigitCh '_' = false), hc,
      Bool.false_eq_true, if_false, if_true]
    rw [ih (fun d hd => h d (by simp [hd]))]
    rfl

theorem pyDigits_natChars (n : Nat) : pyDigits (natChars n) = some n := by
  obtain ⟨c, rest, he⟩ := List.exists_cons_of_ne_nil (natChars_ne_nil n)
  have hall := natChars_all_digits n
  have hc : isDigitCh c = true := hall c (by rw [he]; simp)
  have hrest : ∀ d ∈ rest, isDigitCh d = true := fun d hd => hall d (by rw [he]; simp [hd])
  have hval : digitsVal (natChars n) 0 = n := by
    rw [digitsVal_natChars n 0]; simp
  rw [he] at hval ⊢
  rw [pyDigits, hc]
  simp only [if_true]
  rw [pyDigitsAux_digits rest hrest]
  rw [show digitsVal rest (digitVal c) = digitsVal (c :: rest) 0 by
    simp [digitsVal]]
  rw [hval]

theorem dropWhile_no_space (l : List Char) (h : ∀ c ∈ l, isSpaceCh c = false) :
    l.dropWhile isSpaceCh = l := by
  cases l with
  | nil => rfl
  | cons c rest => simp [List.dropWhile_cons, h c (by simp)]

theorem trimCh_no_space (l : List Char) (h : ∀ c ∈ l, isSpaceCh c = false) :
    trimCh l = l := by
  unfold trimCh
  rw [dropWhile_no_space l h]
  rw [dropWhile_no_space l.reverse (fun c hc => h c (List.mem_reverse.mp hc))]
  exact List.reverse_reverse l

theorem pyIntL_natChars (n : Nat) : pyIntL (natChars n) = some (n : Int) := by
  have hall := natChars_all_digits n
  unfold pyIntL
  rw [trimCh_no_space _ (fun c hc => digit_not_space (hall c hc))]
  obtain ⟨c, rest, he⟩ := List.exists_cons_of_ne_nil (natChars_ne_nil n)
  have hc : isDigitCh c = true := hall c (by rw [he]; simp)
  rw [he]
  simp only [digit_beq_false hc (by decide : isDigitCh '+' = false),
    digit_beq_false hc (by decide : isDigitCh '-' = false),
    Bool.false_eq_true, if_false]
  rw [← he, pyDigits_natChars n]
  rfl

-- Splitting on a separator character.

theorem splitOnCh_ne_nil (sep : Char) (l : List Char) : splitOnCh sep l ≠ [] := by
  induction l with
  | nil => simp [splitOnCh]
  | cons c rest ih =>
    rw [splitOnCh]
    split
    · simp
    · cases hsp : splitOnCh sep rest with
      | nil => simp
      | cons h t => simp

theorem splitOnCh_no_sep (sep : Char) (l : List Char)
    (h : ∀ c ∈ l, (c == sep) = false) : splitOnCh sep l = [l] := by
  induction l with
  | nil => rfl
  | cons c rest ih =>
    rw [splitOnCh, h c (by simp)]
    simp only [Bool.false_eq_true, if_false]
    rw [ih (fun d hd => h d (by simp [hd]))]

theorem splitOnCh_append (sep : Char) (a r : List Char)
    (h : ∀ c ∈ a, (c == sep) = false) :
    splitOnCh sep (a ++ sep :: r) = a :: splitOnCh sep r := by
  induction a with
  | nil =>
    simp only [List.nil_append]
    rw [splitOnCh]
    simp
  | cons c rest ih =>
    rw [List.cons_append, splitOnCh, h c (by simp)]
    simp only [Bool.false_eq_true, if_false]
    rw [ih (fun d hd => h d (by simp [hd]))]

-- Rendered versions parse back to the original triple.

theorem intChars_natCast (n : Nat) : intChars (n : Int) = natChars n := by
  unfold intChars
  rw [if_neg (by omega)]
  norm_num

theorem parse_render (M N P : Nat) :
    parse_version (renderVersion M N P) = some ((M : Int), (N : Int), (P : Int)) := by
  have hdot : ∀ n : Nat, ∀ c ∈ natChars n, (c == '.') = false := fun n c hc =>
    digit_beq_false (natChars_all_digits n c hc) (by decide)
  unfold parse_version renderVersion
  simp only [intChars_natCast]
  rw [splitOnCh_append '.' (natChars M) _ (hdot M)]
  rw [splitOnCh_append '.' (natChars N) _ (hdot N)]
  rw [splitOnCh_no_sep '.' (natChars P) (hdot P)]
  simp only [pyIntL_natChars]

theorem renderVersion_no_plus (M N P : Nat) :
    ∀ c ∈ (renderVersion M N P).data, (c == '+') = false := by
  unfold renderVersion
  simp only [intChars_natCast]
  intro c hc
  simp only [List.mem_append, List.mem_cons] at hc
  rcases hc with h | h | h | h | h
  · exact digit_beq_false (natChars_all_digits M c h) (by decide)
  · subst h; decide
  · exact digit_beq_false (natChars_all_digits N c h) (by decide)
  · subst h; decide
  · exact digit_beq_false (natChars_all_digits P c h) (by decide)

theorem takeWhile_append_plus (a r : List Char) (h : ∀ c ∈ a, (c == '+') = false) :
    (a ++ '+' :: r).takeWhile (fun c => !(c == '+')) = a := by
  induction a with
  | nil => simp [List.takeWhile_cons]
  | cons c rest ih =>
    simp only [List.cons_append, List.takeWhile_cons, h c (by simp)]
    simp only [Bool.not_false, if_true, List.cons.injEq, true_and]
    exact ih (fun d hd => h d (by simp [hd]))

theorem strip_no_plus (s : String) (h : ∀ c ∈ s.data, (c == '+') = false) :
    strip_build_suffix s = s := by
  unfold strip_build_suffix
  rw [if_neg]
  intro hmem
  have h2 : '+' ∈ s.data := by
    simpa using hmem
  have := h '+' h2
  simp at this

theorem strip_append_plus (a r : List Char) (h : ∀ c ∈ a, (c == '+') = false) :
    strip_build_suffix ⟨a ++ '+' :: r⟩ = ⟨a⟩ := by
  unfold strip_build_suffix
  rw [if_pos]
  · rw [show (String.mk (a ++ '+' :: r)).data = a ++ '+' :: r from rfl]
    rw [takeWhile_append_plus a r h]
  · simp

/-- C5: for every version triple and every build number n ≥ 0, `qualify`
(the composition step of `get_version_with_build`, versioning.py:328-340)
returns the canonical text for n = 0 and `"{v}+{n}"` for n > 0, and
`strip_build_suffix` (the `'+'`-prefix strip of versioning.py:71-72 and
334-336) round-trips either result back to the canonical text. -/
theorem qualify_roundtrip (M N P n : Nat) :
    qualify (renderVersion M N P) 0 = renderVersion M N P ∧
    (0 < n → qualify (renderVersion M N P) (n : Int) =
      ⟨(renderVersion M N P).data ++ '+' :: natChars n⟩) ∧
    strip_build_suffix (qualify (renderVersion M N P) (n : Int)) =
      renderVersion M N P := by
  have hnp := renderVersion_no_plus M N P
  have hbase : strip_build_suffix (renderVersion M N P) = renderVersion M N P :=
    strip_no_plus _ hnp
  have hzero : qualify (renderVersion M N P) 0 = renderVersion M N P := by
    unfold qualify
    rw [if_neg (by omega)]
    exact hbase
  have hpos : 0 < n → qualify (renderVersion M N P) (n : Int) =
      ⟨(renderVersion M N P).data ++ '+' :: natChars n⟩ := by
    intro hn
    unfold qualify
    rw [if_pos (by exact_mod_cast hn), hbase, intChars_natCast]
  refine ⟨hzero, hpos, ?_⟩
  rcases Nat.eq_zero_or_pos n with h0 | h0
  · subst h0
    rw [show ((0 : Nat) : Int) = 0 from rfl, hzero]
    exact hbase
  · rw [hpos h0]
    have := strip_append_plus (renderVersion M N P).data (natChars n) hnp
    rw [this]

/-- C5 witness: the round-trip evaluated at version 1.2.3 with build number 5. -/
theorem qualify_roundtrip_witness :
    qualify (renderVersion 1 2 3) 5 = ⟨(renderVersion 1 2 3).data ++ '+' :: natChars 5⟩ :=
  (qualify_roundtrip 1 2 3 5).2.1 (by decide)

/-- C6: `increment_version` (versioning.py:111-128) maps major to
(major+1, 0, 0), minor to (major, minor+1, 0) and patch to
(major, minor, patch+1), rendered canonically. -/
theorem increment_version_components (M N P : Nat) :
    increment_version (renderVersion M N P) ("major") =
      some (renderVersion (M + 1 : Nat) 0 0) ∧
    increment_version (renderVersion M N P) ("minor") =
      some (renderVersion M (N + 1 : Nat) 0) ∧
    increment_version (renderVersion M N P) ("patch") =
      some (renderVersion M N (P + 1 : Nat)) := by
  unfold increment_version
  rw [parse_render]
  refine ⟨?_, ?_, ?_⟩ <;> simp [bumpTriple]

/-- C2 (amended): `parse_version` (versioning.py:98-108) succeeds on every
canonical three-component version and returns the triple; it fails whenever
the input does not split into exactly three dot-separated components, and on
non-numeric components; but a component carrying a sign is accepted by
Python `int()`, so `"-1.2.3"` parses to (-1, 2, 3) instead of failing. -/
theorem parse_version_shape :
    (∀ M N P : Nat, parse_version (renderVersion M N P) =
      some ((M : Int), (N : Int), (P : Int))) ∧
    (∀ s : String, (splitOnCh '.' s.data).length ≠ 3 → parse_version s = none) ∧
    (parse_version ("a.b.c") = none ∧ parse_version ("1.2") = none ∧
      parse_version ("1.2.3.4") = none) ∧
    parse_version ("-1.2.3") = some (-1, 2, 3) := by
  refine ⟨parse_render, ?_, by decide, by decide⟩
  intro s h
  unfold parse_version
  generalize hl : splitOnCh '.' s.data = l at h
  match l with
  | [] => rfl
  | [_] => rfl
  | [_, _] => rfl
  | [_, _, _] => simp at h
  | _ :: _ :: _ :: _ :: _ => rfl

/-- C2 witness: the wrong-shape branch applied to a concrete two-component
input. -/
theorem parse_version_shape_witness : parse_version ("7.8") = none :=
  parse_version_shape.2.1 ("7.8") (by decide)

/-- C2 counterexample: the claim says sign-carrying components are rejected
as non-numeric, but `parse_version "-1.2.3"` succeeds with (-1, 2, 3)
because Python `int("-1")` accepts the sign. -/
theorem parse_version_signed_cex : parse_version ("-1.2.3") = some (-1, 2, 3) := by
  decide

theorem any_of_none_first {α : Type} (p q : α → Bool) (l : List α)
    (h : l.any p = false) : l.any (fun x => !p x && q x) = l.any q := by
  induction l with
  | nil => rfl
  | cons a t ih =>
    simp only [List.any_cons, Bool.or_eq_false_iff] at h
    simp [List.any_cons, h.1, ih h.2]

theorem classify_fold (commits : List String) : ∀ b f x : Bool,
    commits.foldl classifyStep (b, f, x) =
      (b || commits.any lineBreaking,
       f || commits.any (fun l => !lineBreaking l && lineFeat l),
       x || commits.any (fun l => !lineBreaking l && (!lineFeat l && lineFix l))) := by
  induction commits with
  | nil => intro b f x; simp
  | cons c cs ih =>
    intro b f x
    rw [List.foldl_cons]
    cases hB : lineBreaking c <;> cases hF : lineFeat c <;> cases hX : lineFix c <;>
      simp [classifyStep, hB, hF, hX, ih, List.any_cons, Bool.or_assoc]

/-- C1 (amended): the classifier returns "major" when some line's lowercased
text contains "breaking change" or `!` anywhere; otherwise "minor" when some
line's lowercased text STARTS WITH `feat` (prefix match, not the substring
containment the claim states); otherwise "patch" whether or not some line
starts with `fix`; and `analyze_git_commits` returns "patch" on an empty or
unreadable commit source. -/
theorem classify_commits_rule :
    (∀ commits : List String,
      classify_commits commits =
        if commits.any lineBreaking then "major"
        else if commits.any lineFeat then "minor"
        else if commits.any lineFix then "patch"
        else "patch") ∧
    analyze_git_commits none = "patch" ∧
    analyze_git_commits (some ("")) = "patch" := by
  refine ⟨?_, rfl, by decide⟩
  intro commits
  unfold classify_commits
  rw [classify_fold commits false false false]
  simp only [Bool.false_or]
  cases hB : commits.any lineBreaking
  · simp only [Bool.false_eq_true, if_false]
    rw [any_of_none_first lineBreaking lineFeat commits hB]
    cases hF : commits.any lineFeat
    · simp only [Bool.false_eq_true, if_false]
      rw [any_of_none_first lineBreaking (fun l => !lineFeat l && lineFix l) commits hB]
      rw [any_of_none_first lineFeat lineFix commits hF]
    · simp
  · simp

/-- C1 counterexample: the line "add feat support" contains `feat` as a
substring of its lowercased text and carries no breaking marker, so the
claim predicts "minor"; the code matches `feat` only with `startswith` and
classifies it "patch". -/
theorem classify_commits_substring_cex :
    containsSub ("feat").data (lowerList ("add feat support").data) = true ∧
    lineBreaking ("add feat support") = false ∧
    classify_commits [("add feat support")] = "patch" := by
  decide

theorem lookup_setKey_self (kvs : List (String × Val)) (k : String) (v : Val) :
    lookupKey (setKey kvs k v) k = some v := by
  induction kvs with
  | nil => simp [setKey, lookupKey]
  | cons p rest ih =>
    obtain ⟨k', v'⟩ := p
    by_cases h : k' = k
    · simp [setKey, lookupKey, h]
    · simp [setKey, lookupKey, h, ih]

theorem lookup_setKey_other (kvs : List (String × Val)) (k k' : String) (v : Val)
    (h : k' ≠ k) : lookupKey (setKey kvs k v) k' = lookupKey kvs k' := by
  induction kvs with
  | nil => simp [setKey, lookupKey, Ne.symm h]
  | cons p rest ih =>
    obtain ⟨k0, v0⟩ := p
    by_cases h0 : k0 = k
    · subst h0
      simp [setKey, lookupKey, Ne.symm h]
    · simp [setKey, lookupKey, h0, ih]

/-- C7: `write_version` (versioning.py:79-95) changes only
`project.version`, and `write_build_number` (versioning.py:289-311) changes
only `tool.uv_easy.build_number`; every other key present in the loaded
document is preserved by the read-modify-write. -/
theorem manifest_write_frame (doc : Doc) (ver : String) (n : Int) :
    (∀ doc', write_version doc ver = some doc' →
      (∀ k, k ≠ "project" → lookupKey doc' k = lookupKey doc k) ∧
      (∀ proj, lookupKey doc "project" = some (Val.table proj) →
        lookupKey doc' "project" =
          some (Val.table (setKey proj "version" (Val.str ver))) ∧
        (∀ k, k ≠ "version" →
          lookupKey (setKey proj "version" (Val.str ver)) k = lookupKey proj k) ∧
        lookupKey (setKey proj "version" (Val.str ver)) "version" =
          some (Val.str ver))) ∧
    (∀ doc', write_build_number doc n = some doc' →
      (∀ k, k ≠ "tool" → lookupKey doc' k = lookupKey doc k) ∧
      (∀ t t', lookupKey doc "tool" = some (Val.table t) →
        lookupKey doc' "tool" = some (Val.table t') →
        (∀ k, k ≠ "uv_easy" → lookupKey t' k = lookupKey t k) ∧
        (∀ u u', lookupKey t "uv_easy" = some (Val.table u) →
          lookupKey t' "uv_easy" = some (Val.table u') →
          (∀ k, k ≠ "build_number" → lookupKey u' k = lookupKey u k) ∧
          lookupKey u' "build_number" = some (Val.int n)))) := by
  constructor
  · intro doc' hw
    cases hp : lookupKey doc "project" with
    | none =>
      have hw2 : write_version doc ver = none := by
        simp only [write_version, hp]
      rw [hw2] at hw
      exact absurd hw (by simp)
    | some v =>
      cases v with
      | str s =>
        have hw2 : write_version doc ver = none := by
          simp only [write_version, hp]
        rw [hw2] at hw
        exact absurd hw (by simp)
      | int i =>
        have hw2 : write_version doc ver = none := by
          simp only [write_version, hp]
        rw [hw2] at hw
        exact absurd hw (by simp)
      | table proj =>
        have hw2 : write_version doc ver =
            some (setKey doc "project"
              (Val.table (setKey proj "version" (Val.str ver)))) := by
          simp only [write_version, hp]
        rw [hw2] at hw
        simp only [Option.some.injEq] at hw
        subst hw
        refine ⟨fun k hk => lookup_setKey_other doc "project" k _ hk, ?_⟩
        intro proj0 hp0
        simp only [Option.some.injEq, Val.table.injEq] at hp0
        subst hp0
        exact ⟨lookup_setKey_self doc "project" _,
          fun k hk => lookup_setKey_other proj "version" k _ hk,
          lookup_setKey_self proj "version" _⟩
  · intro doc' hw
    cases hp : lookupKey doc "tool" with
    | none =>
      have hw2 : write_build_number doc n =
          some (setKey doc "tool"
            (Val.table [("uv_easy", Val.table [("build_number", Val.int n)])])) := by
        simp only [write_build_number, hp]
      rw [hw2] at hw
      simp only [Option.some.injEq] at hw
      subst hw
      refine ⟨fun k hk => lookup_setKey_other doc "tool" k _ hk, ?_⟩
      intro t t' ht _
      exact absurd ht (by simp)
    | some v =>
      cases v with
      | str s =>
        have hw2 : write_build_number doc n = none := by
          simp only [write_build_number, hp]
        rw [hw2] at hw
        exact absurd hw (by simp)
      | int i =>
        have hw2 : write_build_number doc n = none := by
          simp only [write_build_number, hp]
        rw [hw2] at hw
        exact absurd hw (by simp)
      | table t =>
        cases hu : lookupKey t "uv_easy" with
        | none =>
          have hw2 : write_build_number doc n =
              some (setKey doc "tool" (Val.table (setKey t "uv_easy"
                (Val.table [("build_number", Val.int n)])))) := by
            simp only [write_build_number, hp, hu]
          rw [hw2] at hw
          simp only [Option.some.injEq] at hw
          subst hw
          refine ⟨fun k hk => lookup_setKey_other doc "tool" k _ hk, ?_⟩
          intro t0 t' ht0 ht'
          simp only [Option.some.injEq, Val.table.injEq] at ht0
          subst ht0
          rw [lookup_setKey_self doc "tool" _] at ht'
          simp only [Option.some.injEq, Val.table.injEq] at ht'
          subst ht'
          refine ⟨fun k hk => lookup_setKey_other t "uv_easy" k _ hk, ?_⟩
          intro u u' hu0 _
          rw [hu] at hu0
          exact absurd hu0 (by simp)
        | some w =>
          cases w with
          | str s =>
            have hw2 : write_build_number doc n = none := by
              simp only [write_build_number, hp, hu]
            rw [hw2] at hw
            exact absurd hw (by simp)
          | int i =>
            have hw2 : write_build_number doc n = none := by
              simp only [write_build_number, hp, hu]
            rw [hw2] at hw
            exact absurd hw (by simp)
          | table u =>
            have hw2 : write_build_number doc n =
                some (setKey doc "tool" (Val.table (setKey t "uv_easy"
                  (Val.table (setKey u "build_number" (Val.int n)))))) := by
              simp only [write_build_number, hp, hu]
            rw [hw2] at hw
            simp only [Option.some.injEq] at hw
            subst hw
            refine ⟨fun k hk => lookup_setKey_other doc "tool" k _ hk, ?_⟩
            intro t0 t' ht0 ht'
            simp only [Option.some.injEq, Val.table.injEq] at ht0
            subst ht0
            rw [lookup_setKey_self doc "tool" _] at ht'
            simp only [Option.some.injEq, Val.table.injEq] at ht'
            subst ht'
            refine ⟨fun k hk => lookup_setKey_other t "uv_easy" k _ hk, ?_⟩
            intro u0 u' hu0 hu'
            rw [hu] at hu0
            simp only [Option.some.injEq, Val.table.injEq] at hu0
            subst hu0
            rw [lookup_setKey_self t "uv_easy" _] at hu'
            simp only [Option.some.injEq, Val.table.injEq] at hu'
            subst hu'
            exact ⟨fun k hk => lookup_setKey_other u "build_number" k _ hk,
              lookup_setKey_self u "build_number" _⟩

/-- C3: running `version up --patch` while the stored version carries a
build suffix ("1.2.3+1") silently normalizes it to "1.2.3" before the
increment, persists "1.2.4" into `project.version`, and leaves the whole
`tool` table — hence `tool.uv_easy.build_number` — untouched. -/
theorem bump_normalizes_build_suffix (doc : Doc) (proj : List (String × Val))
    (tags : List String) (g : Option String)
    (hp : lookupKey doc "project" = some (Val.table proj))
    (hv : lookupKey proj "version" = some (Val.str ("1.2.3+1"))) :
    up_cmd false false true false false g ⟨doc, tags⟩ =
      ⟨false, some ⟨setKey doc "project"
          (Val.table (setKey proj "version" (Val.str ("1.2.4")))),
        tags ++ [("v1.2.4")]⟩⟩ ∧
    lookupKey (setKey doc "project"
        (Val.table (setKey proj "version" (Val.str ("1.2.4"))))) "tool" =
      lookupKey doc "tool" ∧
    lookupKey (setKey proj "version" (Val.str ("1.2.4"))) "version" =
      some (Val.str ("1.2.4")) := by
  have h1 : read_version doc = some ("1.2.3") := by
    simp only [read_version, hp, hv]
    rw [show strip_build_suffix ("1.2.3+1") = ("1.2.3") by decide]
  have h2 : increment_version ("1.2.3") ("patch") = some ("1.2.4") := by decide
  have h3 : write_version doc ("1.2.4") =
      some (setKey doc "project"
        (Val.table (setKey proj "version" (Val.str ("1.2.4"))))) := by
    simp only [write_version, hp]
  have h4 : tag_name ("1.2.4") = ("v1.2.4") := by decide
  refine ⟨?_, lookup_setKey_other doc "project" "tool" _ (by decide),
    lookup_setKey_self proj "version" _⟩
  simp [up_cmd, h1, h2, h3, h4]

/-- C3 witness: the suffixed-bump scenario on a concrete manifest. -/
theorem bump_normalizes_build_suffix_witness :
    up_cmd false false true false false none
        ⟨[("project", Val.table [("version", Val.str ("1.2.3+1"))]),
          ("tool", Val.table [("uv_easy", Val.table [("build_number", Val.int 1)])])],
         []⟩ =
      ⟨false, some ⟨[("project", Val.table [("version", Val.str ("1.2.4"))]),
          ("tool", Val.table [("uv_easy", Val.table [("build_number", Val.int 1)])])],
        [("v1.2.4")]⟩⟩ :=
  (bump_normalizes_build_suffix
    [("project", Val.table [("version", Val.str ("1.2.3+1"))]),
     ("tool", Val.table [("uv_easy", Val.table [("build_number", Val.int 1)])])]
    [("version", Val.str ("1.2.3+1"))] [] none rfl rfl).1

/-- C8: invoking `version up` with `--auto` together with a manual kind, or
with neither `--auto` nor any manual kind, is rejected by the flag check
(the spec's `AmbiguousBumpRequest`) before the manifest is read: the state
comes back unchanged, nothing is written and no tag is created. -/
theorem bump_flag_usage_error (major minor patch auto noPush : Bool)
    (g : Option String) (st : CliState)
    (h : (auto = true ∧ (major || minor || patch) = true) ∨
         (auto = false ∧ major = false ∧ minor = false ∧ patch = false)) :
    up_cmd major minor patch auto noPush g st = ⟨true, some st⟩ := by
  rcases h with ⟨ha, hm⟩ | ⟨ha, h1, h2, h3⟩
  · subst ha
    cases major <;> cases minor <;> cases patch <;> simp_all [up_cmd]
  · subst ha; subst h1; subst h2; subst h3
    simp [up_cmd]

/-- C8 witness: `--major --auto` together, on a concrete state. -/
theorem bump_flag_usage_error_witness :
    up_cmd true false false true false none ⟨[], []⟩ = ⟨true, some ⟨[], []⟩⟩ :=
  bump_flag_usage_error true false false true false none ⟨[], []⟩
    (Or.inl ⟨rfl, by decide⟩)

/-- C10: the `--version` resolver never aborts: when the installed-package
lookup fails and the manifest is missing, unreadable, or lacks
`project.version`, it returns the literal default "0.0.0". -/
theorem get_version_default (m : Option Doc) (h : manifestVersion m = none) :
    get_version none m = Val.str ("0.0.0") := by
  unfold get_version
  rw [h]

/-- C10 witness: both sources empty. -/
theorem get_version_default_witness : get_version none none = Val.str ("0.0.0") :=
  get_version_default none rfl

/-- C4: the call the `build` command makes into `build_package` does not
bind — `builder.py:40` defines `build_package()` with no parameters while
`cli.py:180` passes `increment_build` and `version_file` — so every `build`
invocation (including the `--no-build-number` path the claim describes)
raises `TypeError` before any version normalization could happen. -/
theorem build_package_call_mismatch :
    pythonCallBinds build_package_params build_cli_call_kwargs = false := by
  decide

/-- C7 witness: the frame conditions evaluated on `docW` for both writes. -/
theorem manifest_write_frame_witness :
    lookupKey docW1 "extra" = lookupKey docW "extra" ∧
    lookupKey [("build_number", Val.int 7)] "build_number" = some (Val.int 7) :=
  ⟨((manifest_write_frame docW ("9.9.9") 7).1 docW1 rfl).1 "extra" (by decide),
   ((((manifest_write_frame docW ("9.9.9") 7).2 docW2 rfl).2
      [("uv_easy", Val.table [("build_number", Val.int 1)])]
      [("uv_easy", Val.table [("build_number", Val.int 7)])] rfl rfl).2
      [("build_number", Val.int 1)] [("build_number", Val.int 7)] rfl rfl).2⟩

theorem splitOnCh_join (sep : Char) (ls : List (List Char)) (hne : ls ≠ [])
    (h : ∀ l ∈ ls, ∀ c ∈ l, (c == sep) = false) :
    splitOnCh sep (joinCh sep ls) = ls := by
  induction ls with
  | nil => exact absurd rfl hne
  | cons a t ih =>
    cases t with
    | nil => exact splitOnCh_no_sep sep a (h a (by simp))
    | cons b t2 =>
      rw [show joinCh sep (a :: b :: t2) = a ++ sep :: joinCh sep (b :: t2) from rfl]
      rw [splitOnCh_append sep a _ (h a (by simp))]
      rw [ih (by simp) (fun l hl => h l (List.mem_cons_of_mem a hl))]

theorem replaceVersionLine_found (v : String) (pre post : List (List Char))
    (line : List Char) (hpre : ∀ l ∈ pre, versionLinePred l = false)
    (hline : versionLinePred line = true) :
    replaceVersionLine v (pre ++ line :: post) =
      some (pre ++ verLineChars v :: post) := by
  induction pre with
  | nil => simp [replaceVersionLine, hline]
  | cons a t ih =>
    simp only [List.cons_append, replaceVersionLine, hpre a (by simp),
      Bool.false_eq_true, if_false, List.append_eq]
    rw [ih (fun l hl => hpre l (List.mem_cons_of_mem a hl))]
    rfl

theorem replaceVersionLine_none (v : String) (ls : List (List Char))
    (h : ∀ l ∈ ls, versionLinePred l = false) :
    replaceVersionLine v ls = none := by
  induction ls with
  | nil => rfl
  | cons a t ih =>
    simp [replaceVersionLine, h a (by simp),
      ih (fun l hl => h l (List.mem_cons_of_mem a hl))]

/-- C9 (amended): for an existing artifact file, the first line whose
whitespace-STRIPPED text starts with `__version__` (the code strips the
line before testing, which the claim's plain "starting with" does not
capture) is replaced in place by the assignment line, all other lines and
their order preserved verbatim; when no line matches under that stripped
test, the assignment line is appended at the end with the trailing newline
normalized. -/
theorem write_version_file_rule (v : String) (pre post : List (List Char))
    (line : List Char) (content : String)
    (hpre : ∀ l ∈ pre, versionLinePred l = false)
    (hline : versionLinePred line = true)
    (hnl : ∀ l ∈ pre ++ line :: post, ∀ c ∈ l, (c == '\n') = false)
    (hnone : ∀ l ∈ splitOnCh '\n' content.data, versionLinePred l = false) :
    write_version_file_content v ⟨joinCh '\n' (pre ++ line :: post)⟩ =
      ⟨joinCh '\n' (pre ++ verLineChars v :: post)⟩ ∧
    write_version_file_content v content =
      ⟨(if !content.data.isEmpty && !(content.data.getLast? == some '\n')
          then content.data ++ ['\n'] else content.data) ++
        verLineChars v ++ ['\n']⟩ := by
  constructor
  · unfold write_version_file_content
    rw [show (String.mk (joinCh '\n' (pre ++ line :: post))).data =
          joinCh '\n' (pre ++ line :: post) from rfl]
    rw [splitOnCh_join '\n' _ (by simp) hnl]
    rw [replaceVersionLine_found v pre post line hpre hline]
  · unfold write_version_file_content
    rw [replaceVersionLine_none v _ hnone]

/-- C9 witness: the in-place replacement on the spec's scenario, content
`x = 1`, `__version__ = "0.0.1"`, `y = 2` with a trailing newline, written
with version 2.0.0. -/
theorem write_version_file_rule_witness :
    write_version_file_content ("2.0.0")
        ⟨joinCh '\n' ([("x = 1").data] ++
          ("__version__ = \"0.0.1\"").data :: [("y = 2").data, []])⟩ =
      ⟨joinCh '\n' ([("x = 1").data] ++
        verLineChars ("2.0.0") :: [("y = 2").data, []])⟩ :=
  (write_version_file_rule ("2.0.0") [("x = 1").data] [("y = 2").data, []]
    (("__version__ = \"0.0.1\"").data) ("a = 1")
    (by decide) (by decide) (by decide) (by decide)).1

/-- C9 counterexample: in content consisting of the single indented line
`  __version__ = "0.0.1"`, no line starts with `__version__`, so the claim
prescribes appending the assignment; the code strips the line before
testing, finds a match, and replaces the line instead. -/
theorem write_version_file_indent_cex :
    isPrefixOfCh ("__version__").data (("  __version__ = \"0.0.1\"").data) = false ∧
    write_version_file_content ("2.0.0") ("  __version__ = \"0.0.1\"") =
      ("__version__ = \"2.0.0\"") := by
  decide
